import Mathlib

/-!
# Verification of the vermouth middleware stack

A shallow embedding, in Lean 4, of the core of the `bluele/vermouth` Go
library (`vermouth.go`, `serve.go`): the middleware chain builder and
executor, the scoped-middleware routing wrapper, the handler/middleware
shape adapters, and the graceful-shutdown observer. The instrumented
response writer's implementation file is not part of the sources at hand
(only its test suite is), so the Response Sink is modelled from the
specification, as indicated on each of its definitions.

Conventions of the embedding:
* Go strings used as URL patterns/paths are modelled as `List Char`
  (Go strings are byte sequences; patterns and paths here are ASCII, so
  byte-wise and character-wise operations agree).
* The `http.ResponseWriter` plus all external effects visible to a
  handler are folded into an explicit state `St`, threaded through every
  call; for the chain claims the observable effect is an execution
  trace (`St.trace`).
* A Go panic (in particular the nil-pointer dereference that invoking the
  zero-valued `middleware{}` would cause) is modelled by `Option`: a
  computation that panics returns `none`. A panic at registration time
  is modelled by `Except.error` carrying the panic message.
* The type `context.Context` carries no information relevant to any
  claim, so it is embedded as `Unit`, kept in every signature to mirror
  the source.
-/

/-! ## Data model of the chain engine (`vermouth.go`) -/

/-- Stand-in for `context.Context`; no claim inspects the context value,
so it is `Unit`. -/
abbrev Ctx := Unit

/-- An `*http.Request`: the part the core inspects is `r.URL.Path`. -/
structure Request where
  urlPath : List Char
deriving DecidableEq

/-- A possibly-nil `*http.Request` (`makeRoutingHandler` checks `r == nil`). -/
abbrev Req := Option Request

/-- The observable world state; for the chain claims the observable
effect of a handler is the trace of markers it emits (the Response Sink
is modelled separately below). -/
structure St where
  trace : List String
deriving DecidableEq

/-- Append a marker to the execution trace. -/
def St.emit (st : St) (s : String) : St :=
  ⟨st.trace ++ [s]⟩

/-- Emit a list of markers in order. -/
def St.emits (st : St) (l : List String) : St :=
  l.foldl St.emit st

/-- Go type `ContextHandlerFunc`, that is
`func(context.Context, http.ResponseWriter, *http.Request)`.
The writer and all effects live in `St`; `none` models a panic. -/
abbrev ContextHandlerFunc := Ctx → Req → St → Option St

/-- Go types `Handler` / `HandlerFunc`: a middleware unit,
`ServeHTTP(ctx, w, r, next ContextHandlerFunc)`. -/
abbrev Handler := Ctx → Req → ContextHandlerFunc → St → Option St

/-- A `ContextHandler` (`ServeHTTP(ctx, w, r)` with no `next`); the
router-adapter target. The router is assumed non-panicking (spec §1), so
it is a total state transformer. -/
abbrev CtxHandler := Ctx → Req → St → St

/-- The `middleware` struct: `handler Handler; next *middleware`. Both
fields are nilable in Go (`middleware{}` is the zero value with both
nil), hence the `Option`s. -/
inductive Mw where
  | mk (handler : Option Handler) (next : Option Mw)

/-- Method `middleware.ServeHTTP`:
`m.handler.ServeHTTP(ctx, w, r, m.next.ServeHTTP)`. Invoking it on a node
with a nil `handler` or a nil `next` pointer panics in Go (nil interface
call / nil pointer dereference), modelled as `none`. -/
def Mw.ServeHTTP : Mw → Ctx → Req → St → Option St
  | .mk (some h) (some nxt), ctx, r, st =>
      h ctx r (fun c rq s => nxt.ServeHTTP c rq s) st
  | .mk (some _) none, _, _, _ => none
  | .mk none _, _, _, _ => none

/-- The handler of `voidMiddleware`: an empty-bodied
`func(ctx, w, r, next)` — it ignores `next` and has no effect. -/
def voidHandler : Handler :=
  fun _ _ _ st => some st

/-- Function `voidMiddleware()`: the sentinel node. Its trailing node is
the Go zero value `middleware{}` (nil handler, nil next). -/
def voidMiddleware : Mw :=
  .mk (some voidHandler) (some (.mk none none))

/-- Function `build(handlers)`: recursive construction of the linked
chain; the three branches mirror the source
(`len == 0`, `len == 1`, `len > 1`). -/
def build : List Handler → Mw
  | [] => voidMiddleware
  | [h] => .mk (some h) (some voidMiddleware)
  | h :: h2 :: rest => .mk (some h) (some (build (h2 :: rest)))

/-- Function `wrapHandler(handler)`: adapts a `ContextHandler` (the
router) into a chain `Handler` that runs it and then calls `next`. -/
def wrapHandler (handler : CtxHandler) : Handler :=
  fun ctx r next st => next ctx r (handler ctx r st)

/-! ## Deep-embedded interceptor bodies

To quantify over "every interceptor that calls `next` k times" the body
of an interceptor is given syntactically as a list of primitive actions,
with `runActs` as its semantics (interpreting it into the semantic
`Handler` type above). -/

/-- One primitive step of an interceptor body: emit a trace marker, or
invoke the bound `next`. -/
inductive IAct where
  | emit (s : String)
  | callNext
deriving DecidableEq

/-- Run an interceptor body: actions execute left to right; `callNext`
invokes the bound continuation, and a panic (`none`) propagates. -/
def runActs : List IAct → Ctx → Req → ContextHandlerFunc → St → Option St
  | [], _, _, _, st => some st
  | IAct.emit s :: rest, ctx, r, next, st => runActs rest ctx r next (st.emit s)
  | IAct.callNext :: rest, ctx, r, next, st =>
      match next ctx r st with
      | none => none
      | some st' => runActs rest ctx r next st'

/-- Interpret an interceptor body as a chain `Handler`. -/
def interp (acts : List IAct) : Handler :=
  fun ctx r next st => runActs acts ctx r next st

/-- How many times a body invokes its bound `next`. -/
def countNext (acts : List IAct) : Nat :=
  acts.countP (fun a => match a with | IAct.callNext => true | _ => false)

/-- An interceptor that emits `before`, calls `next` exactly once, then
emits `after` (the front-half / back-half shape of the spec's examples). -/
def aroundI (before after : String) : List IAct :=
  [IAct.emit before, IAct.callNext, IAct.emit after]

/-- A chain whose linked-list spine ends in the `voidMiddleware` sentinel
(whose trailing node is the zero-valued `middleware{}`). -/
inductive EndsInVoid : Mw → Prop
  | void : EndsInVoid voidMiddleware
  | cons (h : Handler) (m : Mw) : EndsInVoid m → EndsInVoid (.mk (some h) (some m))

/-! ## Scoped-middleware wrapper (`makeRoutingHandler`) -/

/-- The wildcard test of `makeRoutingHandler`:
`pattern == "" || pattern == "/"`. -/
def isWildcardPattern (pattern : List Char) : Bool :=
  pattern == [] || pattern == ['/']

/-- The pattern-normalisation prologue of `makeRoutingHandler`: when the
pattern is not a wildcard and its last byte is not `'/'`
(`pattern[len(pattern)-1] != '/'`), a trailing separator is appended
(`pattern += "/"`). -/
def normalizePattern (pattern : List Char) : List Char :=
  if !isWildcardPattern pattern && pattern.getLast? != some '/' then
    pattern ++ ['/']
  else
    pattern

/-- Function `makeRoutingHandler(pattern, handler)`: wraps `handler` so
it only activates when `r == nil`, the pattern is a wildcard, or
`strings.HasPrefix(r.URL.Path+"/", pattern)` holds for the normalised
pattern; otherwise it passes the request straight to `next`. -/
def makeRoutingHandler (pattern : List Char) (handler : Handler) : Handler :=
  let isWildcard := isWildcardPattern pattern
  let pat := normalizePattern pattern
  fun ctx r next st =>
    match r with
    | none => handler ctx r next st
    | some req =>
        if isWildcard then handler ctx r next st
        else if pat.isPrefixOf (req.urlPath ++ ['/']) then handler ctx r next st
        else next ctx r st

/-- A probe middleware: emits `"MW"` and forwards to `next`. -/
def probeHandler : Handler := interp [IAct.emit "MW", IAct.callNext]

/-- A probe continuation standing for the rest of the chain: it emits
`"NEXT"`. -/
def probeNext : ContextHandlerFunc := fun _ _ st => some (st.emit "NEXT")

/-- Runs `makeRoutingHandler pattern probeHandler` on a request with the
given path and returns the resulting trace: `["MW", "NEXT"]` when the
wrapped middleware activates, `["NEXT"]` when the request passes
through. -/
def activationTrace (pattern path : List Char) : Option (List String) :=
  (makeRoutingHandler pattern probeHandler () (some ⟨path⟩) probeNext ⟨[]⟩).map St.trace

/-! ## Handler and middleware shape adapters

The Go functions `wrapHandlerFunc` and `wrapMiddlewareFunc` type-switch
on an `interface` argument. The dynamic type is embedded as a closed
sum: one constructor per accepted concrete shape, plus `unknown` for
every other dynamic type (carrying the type's printed name, as used by
the panic message built with `fmt.Sprintf`). -/

/-- Go type `HandlerType`: the dynamic argument of `wrapHandlerFunc`. -/
inductive HandlerType where
  | contextHandlerFunc (f : Ctx → Req → St → St)
  | httpHandlerFunc (f : Req → St → St)
  | contextHandler (f : Ctx → Req → St → St)
  | httpHandler (f : Req → St → St)
  | unknown (typeName : String)

/-- Function `wrapHandlerFunc(handler)`: the four accepted shapes are
adapted to a `ContextHandlerFunc`-shaped route handler; any other
dynamic type panics with the message `Unknown handler type:` followed by
the type name. -/
def wrapHandlerFunc : HandlerType → Except String CtxHandler
  | .contextHandlerFunc h => .ok h
  | .httpHandlerFunc h => .ok fun _ r st => h r st
  | .contextHandler h => .ok fun ctx r st => h ctx r st
  | .httpHandler h => .ok fun _ r st => h r st
  | .unknown t => .error ("Unknown handler type: " ++ t)

/-- Go type `MiddlewareType`: the dynamic argument of
`wrapMiddlewareFunc`. -/
inductive MiddlewareType where
  | handler (h : Handler)
  | contextMiddlewareFunc (f : Ctx → Req → ContextHandlerFunc → St → Option St)
  | httpMiddlewareFunc (f : Req → (Req → St → Option St) → St → Option St)
  | unknown (typeName : String)

/-- Function `wrapMiddlewareFunc(mw)`: the three accepted shapes become a
chain `Handler` (the non-context `func(w, r, next http.HandlerFunc)`
shape gets the current context closed over); any other dynamic type
panics with the message `Unknown middleware type:` followed by the type
name. -/
def wrapMiddlewareFunc : MiddlewareType → Except String Handler
  | .handler m => .ok m
  | .contextMiddlewareFunc m => .ok m
  | .httpMiddlewareFunc m =>
      .ok fun ctx r next st => m r (fun r2 st2 => next ctx r2 st2) st
  | .unknown t => .error ("Unknown middleware type: " ++ t)

/-- The `Router` collaborator, reduced to its registration surface:
`Handle(method, pattern, handler)` records a route. -/
structure Router where
  routes : List (String × List Char × CtxHandler)

/-- Method `Router.Handle`. -/
def Router.Handle (router : Router) (method : String) (pattern : List Char)
    (h : CtxHandler) : Router :=
  { router with routes := router.routes ++ [(method, pattern, h)] }

/-- The `Vermouth` composition root: the registered middleware stack and
the terminal router (the root context is `Unit` here). -/
structure Vermouth where
  handlers : List Handler
  router : Router

/-- Method `Vermouth.Use`: wraps the middleware (panicking on an unknown
shape, before anything is appended) and appends the routing-scoped
handler. -/
def Vermouth.Use (vm : Vermouth) (pattern : List Char) (mw : MiddlewareType) :
    Except String Vermouth :=
  match wrapMiddlewareFunc mw with
  | .ok handler => .ok { vm with handlers := vm.handlers ++ [makeRoutingHandler pattern handler] }
  | .error e => .error e

/-- Method `Vermouth.Handle`: wraps the handler (panicking on an unknown
shape, before anything is registered) and registers it with the router. -/
def Vermouth.Handle (vm : Vermouth) (method : String) (pattern : List Char)
    (h : HandlerType) : Except String Vermouth :=
  match wrapHandlerFunc h with
  | .ok f => .ok { vm with router := vm.router.Handle method pattern f }
  | .error e => .error e

/-- Method `Vermouth.Get`. -/
def Vermouth.Get (vm : Vermouth) (pattern : List Char) (h : HandlerType) :
    Except String Vermouth :=
  vm.Handle "GET" pattern h

/-- Method `Vermouth.Post`. -/
def Vermouth.Post (vm : Vermouth) (pattern : List Char) (h : HandlerType) :
    Except String Vermouth :=
  vm.Handle "POST" pattern h

/-! ## The instrumented Response Sink

The repository's response-writer implementation file is not among the
sources at hand — only its test suite is — so the sink is modelled from
the specification (§4.4), constrained by the behaviour the tests pin
down. Hook bodies are opaque to the sink, so a registered hook is
represented by an identifier; everything the sink sends downstream
(hook executions, the committed header, forwarded byte chunks) is
recorded chronologically in `events`. -/

/-- One observable downstream event of the Response Sink. -/
inductive SinkEvent where
  | hookRun (id : Nat)
  | headerSent (code : Nat)
  | bytesSent (n : Nat)
deriving DecidableEq

/-- Modelled from the spec: the Response Sink state (the missing
`response_writer.go`) — recorded `status` (default 200 OK), cumulative
`size`, the `committed` flag, the pre-write hooks in registration order,
and the chronological downstream `events`. -/
structure Sink where
  status : Nat
  size : Nat
  committed : Bool
  hooks : List Nat
  events : List SinkEvent
deriving DecidableEq

/-- Modelled from the spec: a freshly created sink (`NewResponseWriter`)
— default status 200 OK, nothing written, not committed, no hooks. -/
def Sink.new : Sink :=
  { status := 200, size := 0, committed := false, hooks := [], events := [] }

/-- Modelled from the spec: `registerPreWriteHook(fn)` (the Go `Before`)
appends a hook. -/
def Sink.before (s : Sink) (id : Nat) : Sink :=
  { s with hooks := s.hooks ++ [id] }

/-- Modelled from the spec: `setStatus(code)` (the Go `WriteHeader`) —
records the status and commits the response, running every registered
pre-write hook in reverse-of-registration order and then sending the
header downstream; once committed, further calls are inert. -/
def Sink.writeHeader (s : Sink) (code : Nat) : Sink :=
  if s.committed then s
  else
    { s with
      status := code
      committed := true
      events := s.events ++ s.hooks.reverse.map SinkEvent.hookRun
                  ++ [SinkEvent.headerSent code] }

/-- Modelled from the spec: `write(bytes)` — if not yet committed, it
implicitly commits with the default status (running the pre-write hooks
first), then forwards the bytes downstream and accumulates the count. -/
def Sink.write (s : Sink) (n : Nat) : Sink :=
  let s1 := if s.committed then s else s.writeHeader 200
  { s1 with size := s1.size + n, events := s1.events ++ [SinkEvent.bytesSent n] }

/-! ## Optional capability passthrough (hijack) -/

/-- Modelled from the spec: the underlying response destination, with the
optional raw-connection hijack capability (`http.Hijacker`) either
present or absent, and a flag recording whether its own hijack was
invoked (delegation). -/
structure Dest where
  supportsHijack : Bool
  hijacked : Bool
deriving DecidableEq

/-- Modelled from the spec: invoking the hijack capability through the
Response Sink (the missing response-writer `Hijack`) —
capability-query-then-invoke: when the wrapped destination supports
hijacking the sink delegates to it; otherwise the operation fails with a
capability-unsupported error (it neither panics nor silently degrades). -/
def sinkHijack (d : Dest) : Except String Dest :=
  if d.supportsHijack then .ok { d with hijacked := true }
  else .error "the ResponseWriter does not support the Hijacker interface"

/-! ## The Graceful Observer (`ObserveContext` in `serve.go`)

The method starts one goroutine running a single two-branch `select`:
one branch receives from `vm.ctx.Done()` and calls
`srv.Stop(srv.Timeout)`, the other receives from `srv.StopChan()` and
does nothing; in either case the goroutine then exits. A `select`
executes exactly one branch — the one whose channel becomes ready first
(ties broken nondeterministically). The embedding resolves that
nondeterminism with an explicit parameter naming the branch taken and
returns the list of stop calls the observer issues before exiting. -/

/-- Which of the observer's two channels becomes ready first. -/
inductive ObserverSignal where
  | ctxDone
  | stopChan
deriving DecidableEq

/-- A graceful stop request carrying its grace period
(`srv.Stop(srv.Timeout)`). -/
inductive StopCall where
  | stop (timeout : Nat)
deriving DecidableEq

/-- The body of the goroutine `ObserveContext` starts: the stop calls
issued given which channel fired first. -/
def observeContext (firstSignal : ObserverSignal) (timeout : Nat) : List StopCall :=
  match firstSignal with
  | .ctxDone => [StopCall.stop timeout]
  | .stopChan => []

/-! ## Chain lemmas -/

theorem build_cons (h : Handler) (rest : List Handler) :
    build (h :: rest) = .mk (some h) (some (build rest)) := by
  cases rest <;> rfl

theorem serve_mk (h : Handler) (m : Mw) (ctx : Ctx) (r : Req) (st : St) :
    (Mw.mk (some h) (some m)).ServeHTTP ctx r st
      = h ctx r (fun c rq s => m.ServeHTTP c rq s) st := rfl

theorem emits_append (st : St) (l1 l2 : List String) :
    st.emits (l1 ++ l2) = (st.emits l1).emits l2 := by
  simp [St.emits, List.foldl_append]

theorem emits_cons (st : St) (x : String) (l : List String) :
    st.emits (x :: l) = (st.emit x).emits l := rfl

theorem runActs_around (b a : String) (ctx : Ctx) (r : Req)
    (next : ContextHandlerFunc) (st : St) :
    runActs (aroundI b a) ctx r next st
      = match next ctx r (st.emit b) with
        | none => none
        | some st' => some (st'.emit a) := rfl

/-- Running a body only depends on the pointwise behaviour of `next`. -/
theorem runActs_congr (acts : List IAct) (ctx : Ctx) (r : Req)
    (n1 n2 : ContextHandlerFunc) (hn : ∀ c rq s, n1 c rq s = n2 c rq s) (st : St) :
    runActs acts ctx r n1 st = runActs acts ctx r n2 st := by
  induction acts generalizing st with
  | nil => rfl
  | cons a rest ih =>
      cases a with
      | emit s => exact ih (st.emit s)
      | callNext =>
          rw [runActs, runActs, hn]
          cases n2 ctx r st with
          | none => rfl
          | some st' => exact ih st'

theorem countNext_emit (s : String) (rest : List IAct) :
    countNext (IAct.emit s :: rest) = countNext rest := by
  simp [countNext, List.countP_cons]

theorem countNext_callNext (rest : List IAct) :
    countNext (IAct.callNext :: rest) = countNext rest + 1 := by
  simp [countNext, List.countP_cons]

/-- A body that never calls `next` runs the same under any `next`. -/
theorem runActs_no_next (acts : List IAct) (h0 : countNext acts = 0) (ctx : Ctx)
    (r : Req) (n1 n2 : ContextHandlerFunc) (st : St) :
    runActs acts ctx r n1 st = runActs acts ctx r n2 st := by
  induction acts generalizing st with
  | nil => rfl
  | cons a rest ih =>
      cases a with
      | emit s =>
          rw [countNext_emit] at h0
          exact ih h0 (st.emit s)
      | callNext =>
          rw [countNext_callNext] at h0
          exact absurd h0 (Nat.succ_ne_zero _)

theorem build_endsInVoid (hs : List Handler) : EndsInVoid (build hs) := by
  induction hs with
  | nil => exact EndsInVoid.void
  | cons h rest ih =>
      rw [build_cons]
      exact EndsInVoid.cons h _ ih

theorem runActs_isSome (acts : List IAct) (ctx : Ctx) (r : Req)
    (next : ContextHandlerFunc) (hn : ∀ c rq s, (next c rq s).isSome) (st : St) :
    (runActs acts ctx r next st).isSome := by
  induction acts generalizing st with
  | nil => simp [runActs]
  | cons a rest ih =>
      cases a with
      | emit s => exact ih (st.emit s)
      | callNext =>
          have h := hn ctx r st
          rw [runActs]
          cases hv : next ctx r st with
          | none => rw [hv] at h; simp at h
          | some st' => exact ih st'

theorem build_interp_isSome (progs : List (List IAct)) (ctx : Ctx) (r : Req) (st : St) :
    ((build (progs.map interp)).ServeHTTP ctx r st).isSome := by
  induction progs generalizing ctx r st with
  | nil => simp [build, voidMiddleware, Mw.ServeHTTP, voidHandler]
  | cons p rest ih =>
      rw [List.map_cons, build_cons, serve_mk]
      exact runActs_isSome p ctx r _ (fun c rq s => ih c rq s) st

/-- A chain whose interceptor at some position never calls `next` is
observationally independent of every handler placed after that
position. -/
theorem chain_suffix_irrelevant (pre : List (List IAct)) (stopper : List IAct)
    (h0 : countNext stopper = 0) (s1 s2 : List Handler) (ctx : Ctx) (r : Req) (st : St) :
    (build (pre.map interp ++ interp stopper :: s1)).ServeHTTP ctx r st
      = (build (pre.map interp ++ interp stopper :: s2)).ServeHTTP ctx r st := by
  induction pre generalizing ctx r st with
  | nil =>
      simp only [List.map_nil, List.nil_append]
      rw [build_cons, build_cons, serve_mk, serve_mk]
      exact runActs_no_next stopper h0 ctx r _ _ st
  | cons p rest ih =>
      simp only [List.map_cons, List.cons_append]
      rw [build_cons, build_cons, serve_mk, serve_mk]
      exact runActs_congr p ctx r _ _ (fun c rq s => ih c rq s) st

/-! ## Claim theorems -/

/-- C1: for a chain of interceptors [A, B, C] registered in that order
ahead of a terminal handler H, each calling its bound `next` exactly
once, the built chain runs the front halves in registration order and
the back halves in reverse registration order:
A-before, B-before, C-before, H, C-after, B-after, A-after. -/
theorem chain_lifo_order (aB aA bB bA cB cA hM : String) (ctx : Ctx) (r : Req) (st : St) :
    (build [interp (aroundI aB aA), interp (aroundI bB bA), interp (aroundI cB cA),
        wrapHandler (fun _ _ s => s.emit hM)]).ServeHTTP ctx r st
      = some (st.emits [aB, bB, cB, hM, cA, bA, aA]) := by
  rfl

/-- C2: if the interceptor at position k does not call its bound `next`,
then no interceptor registered after position k, nor the terminal router
handler, executes (first conjunct: the chain run is observationally
independent of everything placed after position k, for arbitrary
interceptor bodies before position k); the downstream chain call returns
right after interceptor k's own code, and only the enclosing
interceptors' back halves then run during the unwind (second conjunct:
the exact trace for marker interceptors). -/
theorem chain_short_circuit (pre : List (List IAct)) (stopper : List IAct)
    (h0 : countNext stopper = 0) (ps : List (String × String)) (sk : String)
    (s1 s2 suffix : List Handler) (hH : CtxHandler) (ctx : Ctx) (r : Req) (st : St) :
    ((build (pre.map interp ++ interp stopper :: s1)).ServeHTTP ctx r st
        = (build (pre.map interp ++ interp stopper :: s2)).ServeHTTP ctx r st)
    ∧ ((build (ps.map (fun p => interp (aroundI p.1 p.2))
          ++ interp [IAct.emit sk] :: (suffix ++ [wrapHandler hH]))).ServeHTTP ctx r st
        = some (st.emits (ps.map Prod.fst ++ sk :: (ps.map Prod.snd).reverse))) := by
  constructor
  · exact chain_suffix_irrelevant pre stopper h0 s1 s2 ctx r st
  · induction ps generalizing st with
    | nil =>
        simp only [List.map_nil, List.nil_append]
        rw [build_cons, serve_mk]
        rfl
    | cons p ps ih =>
        rw [List.map_cons, List.cons_append, build_cons, serve_mk]
        show runActs (aroundI p.1 p.2) ctx r _ st = _
        rw [runActs_around]
        simp only [ih]
        simp [St.emits, List.foldl_append]

/-- Witness for C2: a three-interceptor chain in which the middle
interceptor never calls `next`; the trace stops at its marker and the
interceptor after it (and the terminal handler) leave no trace. -/
theorem chain_short_circuit_witness :
    countNext [IAct.emit "bat"] = 0
    ∧ (build ([aroundI "foo" "ban"].map interp
          ++ interp [IAct.emit "bat"]
            :: ([interp (aroundI "bar" "baz")] ++ [wrapHandler (fun _ _ s => s.emit "H")]))).ServeHTTP
        () none ⟨[]⟩
      = some (St.emits ⟨[]⟩ ["foo", "bat", "ban"]) :=
  ⟨by decide,
   (chain_short_circuit [] [IAct.emit "bat"] (by decide) [("foo", "ban")] "bat"
      [] [] [interp (aroundI "bar" "baz")] (fun _ _ s => s.emit "H") () none ⟨[]⟩).2⟩

/-- C3: for a non-wildcard registration pattern the wrapper normalises
the pattern to end with a path separator before the prefix comparison,
so the pattern with and without a trailing slash behaves identically;
with the pattern `"/api"` the wrapped middleware activates for paths
`"/api"`, `"/api/"`, `"/api/x"` and not for `"/apikey"`; and when the
path does not fall under the pattern the wrapper still invokes `next`,
so the rest of the chain runs. -/
theorem scoped_middleware_activation (p : List Char)
    (hw : isWildcardPattern p = false) (hb : p.getLast? ≠ some '/') :
    (∀ (h : Handler) (ctx : Ctx) (r : Req) (next : ContextHandlerFunc) (st : St),
        makeRoutingHandler p h ctx r next st = makeRoutingHandler (p ++ ['/']) h ctx r next st)
    ∧ activationTrace "/api".toList "/api".toList = some ["MW", "NEXT"]
    ∧ activationTrace "/api".toList "/api/".toList = some ["MW", "NEXT"]
    ∧ activationTrace "/api".toList "/api/x".toList = some ["MW", "NEXT"]
    ∧ activationTrace "/api".toList "/apikey".toList = some ["NEXT"]
    ∧ (∀ (handler : Handler) (req : Request) (ctx : Ctx) (next : ContextHandlerFunc) (st : St),
        (normalizePattern p).isPrefixOf (req.urlPath ++ ['/']) = false →
        makeRoutingHandler p handler ctx (some req) next st = next ctx (some req) st) := by
  have hp : p ≠ [] := by
    intro he; rw [he] at hw; simp [isWildcardPattern] at hw
  have hnorm : normalizePattern p = p ++ ['/'] := by
    unfold normalizePattern
    simp [hw, hb]
  have hnorm2 : normalizePattern (p ++ ['/']) = p ++ ['/'] := by
    unfold normalizePattern
    rw [List.getLast?_concat]
    simp
  have hw2 : isWildcardPattern (p ++ ['/']) = false := by
    unfold isWildcardPattern
    cases p with
    | nil => exact absurd rfl hp
    | cons a as => simp
  refine ⟨?_, by decide, by decide, by decide, by decide, ?_⟩
  · intro h ctx r next st
    unfold makeRoutingHandler
    rw [hnorm, hnorm2, hw2, hw]
  · intro handler req ctx next st hm
    unfold makeRoutingHandler
    simp [hw, hm]

/-- Witness for C3 at the concrete pattern `"/api"` and the non-matching
path `"/x"` (the wrapper passes through to `next`). -/
theorem scoped_middleware_activation_witness :
    isWildcardPattern "/api".toList = false
    ∧ "/api".toList.getLast? ≠ some '/'
    ∧ makeRoutingHandler "/api".toList probeHandler () (some ⟨"/x".toList⟩) probeNext ⟨[]⟩
        = probeNext () (some ⟨"/x".toList⟩) ⟨[]⟩ :=
  ⟨by decide, by decide,
   (scoped_middleware_activation "/api".toList (by decide) (by decide)).2.2.2.2.2
     probeHandler ⟨"/x".toList⟩ () probeNext ⟨[]⟩ (by decide)⟩

/-- C4: writing n then m bytes yields size n + m; the status is the
default 200 OK until `setStatus` is called or the first byte is written
(a first write commits with the default status); and a `setStatus` call
issued after the response is committed has no observable effect at
all. -/
theorem sink_size_and_status (n m c c' : Nat) :
    ((Sink.new.write n).write m).size = n + m
    ∧ Sink.new.status = 200
    ∧ (Sink.new.write n).status = 200
    ∧ (Sink.new.writeHeader c).status = c
    ∧ (∀ s : Sink, s.committed = true → s.writeHeader c' = s) := by
  refine ⟨?_, rfl, rfl, ?_, ?_⟩
  · simp [Sink.write, Sink.writeHeader, Sink.new, Nat.add_assoc]
  · simp [Sink.writeHeader, Sink.new]
  · intro s hs
    simp [Sink.writeHeader, hs]

/-- Witness for C4: a sink committed by a 404 header commit ignores a
later 500 header call, and writing 3 then 4 bytes yields size 7. -/
theorem sink_size_and_status_witness :
    (Sink.new.writeHeader 404).committed = true
    ∧ (Sink.new.writeHeader 404).writeHeader 500 = Sink.new.writeHeader 404
    ∧ ((Sink.new.write 3).write 4).size = 7 :=
  ⟨by decide, (sink_size_and_status 0 0 0 500).2.2.2.2 _ (by decide),
   (sink_size_and_status 3 4 0 0).1⟩

theorem foldl_before (ids : List Nat) (s : Sink) :
    ids.foldl Sink.before s = { s with hooks := s.hooks ++ ids } := by
  induction ids generalizing s with
  | nil => simp
  | cons i is ih => simp [ih, Sink.before, List.append_assoc]

/-- C5: committing the response — by the first write or by an explicit
header commit — runs every registered pre-write hook exactly once, in
reverse registration order, strictly before the first byte is forwarded
downstream; a later write forwards further bytes without re-running any
hook. -/
theorem sink_hooks_reverse_once (ids : List Nat) (n m c : Nat) :
    ((ids.foldl Sink.before Sink.new).write n).events
        = ids.reverse.map SinkEvent.hookRun
            ++ [SinkEvent.headerSent 200, SinkEvent.bytesSent n]
    ∧ ((ids.foldl Sink.before Sink.new).writeHeader c).events
        = ids.reverse.map SinkEvent.hookRun ++ [SinkEvent.headerSent c]
    ∧ (((ids.foldl Sink.before Sink.new).write n).write m).events
        = ids.reverse.map SinkEvent.hookRun
            ++ [SinkEvent.headerSent 200, SinkEvent.bytesSent n, SinkEvent.bytesSent m] := by
  rw [foldl_before]
  refine ⟨?_, ?_, ?_⟩ <;>
    simp [Sink.write, Sink.writeHeader, Sink.new]

/-- C6: registering a value that is not one of the supported callable
shapes fails at registration time with a panic naming the unknown type
(`Use` for middleware; `Get`, `Post` and `Handle` for handlers), leaving
nothing registered, while every supported shape registers
successfully. -/
theorem unknown_shape_panics_at_registration (vm : Vermouth) (pattern : List Char)
    (method t : String) :
    vm.Use pattern (.unknown t) = .error ("Unknown middleware type: " ++ t)
    ∧ vm.Handle method pattern (.unknown t) = .error ("Unknown handler type: " ++ t)
    ∧ vm.Get pattern (.unknown t) = .error ("Unknown handler type: " ++ t)
    ∧ vm.Post pattern (.unknown t) = .error ("Unknown handler type: " ++ t)
    ∧ (∀ h, (vm.Use pattern (.handler h)).isOk
        ∧ (vm.Use pattern (.contextMiddlewareFunc h)).isOk)
    ∧ (∀ f, (vm.Use pattern (.httpMiddlewareFunc f)).isOk)
    ∧ (∀ f, (vm.Handle method pattern (.contextHandlerFunc f)).isOk
        ∧ (vm.Handle method pattern (.contextHandler f)).isOk)
    ∧ (∀ f, (vm.Handle method pattern (.httpHandlerFunc f)).isOk
        ∧ (vm.Handle method pattern (.httpHandler f)).isOk) :=
  ⟨rfl, rfl, rfl, rfl, fun _ => ⟨rfl, rfl⟩, fun _ => rfl,
   fun _ => ⟨rfl, rfl⟩, fun _ => ⟨rfl, rfl⟩⟩

/-- C7: when the underlying destination lacks the hijack capability, the
sink's hijack operation returns a capability-unsupported error to its
caller; when the destination supports it, the sink delegates to the
destination's own hijack. -/
theorem hijack_capability_passthrough (d : Dest) :
    (d.supportsHijack = false →
      sinkHijack d = .error "the ResponseWriter does not support the Hijacker interface")
    ∧ (d.supportsHijack = true →
      sinkHijack d = .ok { d with hijacked := true }) := by
  constructor
  · intro h; simp [sinkHijack, h]
  · intro h; simp [sinkHijack, h]

/-- Witness for C7 at a hijack-incapable and a hijack-capable
destination. -/
theorem hijack_capability_passthrough_witness :
    sinkHijack ⟨false, false⟩
        = .error "the ResponseWriter does not support the Hijacker interface"
    ∧ sinkHijack ⟨true, false⟩ = .ok ⟨true, true⟩ :=
  ⟨(hijack_capability_passthrough ⟨false, false⟩).1 rfl,
   (hijack_capability_passthrough ⟨true, false⟩).2 rfl⟩

/-- C8: when the root context is cancelled before the server's stop
channel fires, the observer issues exactly one graceful stop call with
the configured grace period; when the server's stop channel fires first,
the observer exits without issuing any stop call, so it never triggers a
shutdown twice. -/
theorem observer_stops_exactly_once (t : Nat) :
    observeContext .ctxDone t = [StopCall.stop t]
    ∧ (observeContext .ctxDone t).length = 1
    ∧ observeContext .stopChan t = [] :=
  ⟨rfl, rfl, rfl⟩

/-- C9: when the request is nil, the scoped-middleware wrapper activates
the wrapped middleware unconditionally — the prefix restriction
(whatever the pattern) is only applied when a request object is
present. -/
theorem nil_request_always_activates (pattern : List Char) (handler : Handler)
    (ctx : Ctx) (next : ContextHandlerFunc) (st : St) :
    makeRoutingHandler pattern handler ctx none next st = handler ctx none next st := rfl

/-- C10: every chain produced by `build` terminates in the void
sentinel, whose handler ignores `next` and produces no output; the
sentinel's trailing node (nil handler, nil next) would panic if invoked;
and executing a built chain whose interceptors each call `next` at most
once never reaches that nil handler (execution never panics). -/
theorem built_chain_never_hits_nil (progs : List (List IAct))
    (hone : ∀ p ∈ progs, countNext p ≤ 1) (ctx : Ctx) (r : Req) (st : St) :
    EndsInVoid (build (progs.map interp))
      ∧ voidMiddleware.ServeHTTP ctx r st = some st
      ∧ (Mw.mk none none).ServeHTTP ctx r st = none
      ∧ ((build (progs.map interp)).ServeHTTP ctx r st).isSome :=
  ⟨build_endsInVoid _, rfl, rfl, build_interp_isSome progs ctx r st⟩

/-- Witness for C10 at a concrete chain of three interceptors (the
middle one never calls `next`, the others call it once). -/
theorem built_chain_never_hits_nil_witness :
    (∀ p ∈ [aroundI "a" "a2", [IAct.emit "stop"], aroundI "c" "c2"], countNext p ≤ 1)
      ∧ ((build ([aroundI "a" "a2", [IAct.emit "stop"], aroundI "c" "c2"].map interp)).ServeHTTP
          () none ⟨[]⟩).isSome :=
  ⟨by decide,
   (built_chain_never_hits_nil [aroundI "a" "a2", [IAct.emit "stop"], aroundI "c" "c2"]
      (by decide) () none ⟨[]⟩).2.2.2⟩
